import Mathlib

/-!
Shallow embedding of the collada-converter runtime model (convert-renderer-rmx.ts)
and the COLLADA loader source-accessor parsing (COLLADA.Loader.Source), together
with proofs about the embedded operations.

JavaScript numbers are modelled as rationals; typed-array reads use a
default of 0 for out-of-range indices.  Fallible operations (JS exceptions)
are modelled with `Except String`.
-/

/-- Truncation of a rational toward zero, as JavaScript's `Math.trunc`
(`Int.tdiv` truncates toward zero, and the denominator is positive). -/
def ratTrunc (q : ℚ) : ℤ := q.num.tdiv (q.den : ℤ)

/-- JavaScript's `%` operator on numbers: `a - b * trunc(a / b)` (the remainder
takes the sign of the dividend).  Division by zero yields NaN in JS; in this
rational model `a / 0 = 0`, so `jsMod a 0 = a` (a caveat noted where used). -/
def jsMod (a b : ℚ) : ℚ := a - b * (ratTrunc (a / b) : ℚ)

/-- JavaScript's `%` applied to an integer-valued number and a natural modulus,
`a - n * trunc(a / n)`; `Int.tdiv` is exactly truncation toward zero. -/
def jsIntMod (a : ℤ) (n : ℕ) : ℤ := a - n * (a.tdiv n)

/-- Read of a JS typed array (modelled as `List ℚ`) at a possibly negative
index; out-of-range reads default to 0. -/
def readQ (l : List ℚ) (i : ℤ) : ℚ :=
  if 0 ≤ i then l.getD i.toNat 0 else 0

/-- `RMXBoneMatrixTexture.capacity`: number of bone matrices a square RGBA-float
texture of the given side can store, `size * size / 4` (4 texels per matrix). -/
def capacity (size : ℕ) : ℚ := (size * size : ℚ) / 4

/-- Loop body of `RMXBoneMatrixTexture.optimalSize`: while `capacity result < bones`,
double `result`, throwing `"Too many bones"` as soon as the doubled side exceeds
2048.  The loop is translated with structural fuel; starting from side 2 the loop
body runs at most 11 times before returning or throwing, so the fuel of the
top-level entry `optimalSize` is never exhausted. -/
def optimalSizeGo (bones : ℕ) : ℕ → ℕ → Except String ℕ
  | result, 0 => Except.ok result
  | result, fuel + 1 =>
    if capacity result < (bones : ℚ) then
      if 2048 < result * 2 then Except.error "Too many bones"
      else optimalSizeGo bones (result * 2) (fuel)
    else Except.ok result

/-- `RMXBoneMatrixTexture.optimalSize`: smallest texture side for the given
number of bones, starting from side 2. -/
def optimalSize (bones : ℕ) : Except String ℕ := optimalSizeGo bones 2 11

/-- Discriminator for `Except` results: `true` exactly on `Except.ok`
(a JS call that returns normally rather than throwing). -/
def isOkE {ε α : Type} : Except ε α → Bool
  | Except.ok _ => true
  | Except.error _ => false

/-- JavaScript's `(x || "")` applied to a nullable string field: `null` and the
empty string both render as the empty string. -/
def orEmpty (s : Option String) : String := s.getD ""

/-- `RMXMaterial`: diffuse/specular/normal texture references; the fields are
nullable strings (`null` in the constructor). -/
structure RMXMaterial where
  diffuse : Option String
  specular : Option String
  normal : Option String
deriving DecidableEq

/-- `RMXMaterial.hash`: `"material|" + (diffuse || "") + "|" + (specular || "") + "|" + (normal || "")`. -/
def RMXMaterial.hash (m : RMXMaterial) : String :=
  "material|" ++ orEmpty m.diffuse ++ "|" ++ orEmpty m.specular ++ "|" ++ orEmpty m.normal

/-- Modelled from the spec: a 4x4 matrix over the rational model of JS numbers.
The gl-matrix library the renderer uses is external to this repository, so
matrices are modelled abstractly as entry functions and the 16-float buffer
layout follows the spec's stated convention. -/
def Mat4 : Type := Fin 4 → Fin 4 → ℚ

/-- The zero matrix, used as the default for out-of-range list reads. -/
def mat4zero : Mat4 := fun _ _ => 0

/-- Modelled from the spec: `mat4.multiply(out, a, b)` computes the matrix
product `a * b`. -/
def mat4mul (a b : Mat4) : Mat4 := fun i j => ∑ k : Fin 4, a i k * b k j

/-- A quaternion `(x, y, z, w)` in the rational model. -/
def Quat : Type := ℚ × ℚ × ℚ × ℚ

/-- Component access of a quaternion, `q[k]` for `k < 4` (0 otherwise). -/
def qget (q : Quat) (k : ℕ) : ℚ :=
  match q, k with
  | (x, _, _, _), 0 => x
  | (_, y, _, _), 1 => y
  | (_, _, z, _), 2 => z
  | (_, _, _, w), 3 => w
  | _, _ + 4 => 0

/-- Modelled from the spec: `mat4.fromRotationTranslation(out, q, v)` builds the
standard rotation matrix of the quaternion `q = (x, y, z, w)` with the
translation `v` in the last column and bottom row `(0, 0, 0, 1)`. -/
def mat4fromRotationTranslation (q : Quat) (vx vy vz : ℚ) : Mat4 :=
  match q with
  | (x, y, z, w) => fun i j =>
    match i, j with
    | 0, 0 => 1 - 2 * (y * y + z * z)
    | 0, 1 => 2 * (x * y - z * w)
    | 0, 2 => 2 * (x * z + y * w)
    | 0, 3 => vx
    | 1, 0 => 2 * (x * y + z * w)
    | 1, 1 => 1 - 2 * (x * x + z * z)
    | 1, 2 => 2 * (y * z - x * w)
    | 1, 3 => vy
    | 2, 0 => 2 * (x * z - y * w)
    | 2, 1 => 2 * (y * z + x * w)
    | 2, 2 => 1 - 2 * (x * x + y * y)
    | 2, 3 => vz
    | 3, 3 => 1
    | 3, _ => 0

/-- Modelled from the spec: `mat4.scale(out, a, v)` post-multiplies `a` by the
diagonal scale matrix `diag(sx, sy, sz, 1)`, scaling the first three columns. -/
def mat4scale (a : Mat4) (sx sy sz : ℚ) : Mat4 := fun i j =>
  match j with
  | 0 => a i j * sx
  | 1 => a i j * sy
  | 2 => a i j * sz
  | 3 => a i j

/-- Modelled from the spec: flat element `i` of a matrix written to the
destination buffer, using the row-major layout the spec states for the
bone-matrix upload contract (element `i` is row `i / 4`, column `i % 4`). -/
def mat16 (m : Mat4) (i : ℕ) : ℚ :=
  m ⟨i / 4 % 4, Nat.mod_lt _ (by norm_num)⟩ ⟨i % 4, Nat.mod_lt _ (by norm_num)⟩

/-- `RMXBone`: name, parent index (negative for root), skinned flag, inverse
bind matrix, and rest pose position/rotation/scale (vectors and quaternion
stored as small JS arrays, modelled as rational lists). -/
structure RMXBone where
  name : String
  parent : ℤ
  skinned : Bool
  inv_bind_mat : Mat4
  pos : List ℚ
  rot : List ℚ
  scl : List ℚ

/-- Default bone, standing for the `undefined` result of an out-of-range
`bones[b]` read (never reached under the theorems' hypotheses). -/
def defBone : RMXBone :=
  { name := "", parent := -1, skinned := false, inv_bind_mat := mat4zero,
    pos := [], rot := [], scl := [] }

/-- `RMXSkeleton`: ordered bone list. -/
structure RMXSkeleton where
  bones : List RMXBone

/-- `RMXAnimationTrack`: bone index and nullable dense per-frame
position/rotation/scale arrays. -/
structure RMXAnimationTrack where
  bone : ℤ
  pos : Option (List ℚ)
  rot : Option (List ℚ)
  scl : Option (List ℚ)

/-- `RMXAnimation`: name, frame count, fps and per-bone track list; a list
entry is `none` for a null track (`loadAnimationTrack` returns null for a
null JSON track). -/
structure RMXAnimation where
  name : String
  frames : ℕ
  fps : ℚ
  tracks : List (Option RMXAnimationTrack)

/-- `RMXPose`: flat per-bone position/rotation/scale arrays and the per-bone
world matrix scratch list, mutated in place by the sampler and exporter. -/
structure RMXPose where
  pos : List ℚ
  rot : List ℚ
  scl : List ℚ
  world_matrices : List Mat4

/-- Local matrix of bone `b` in `RMXSkeletalAnimation.exportPose`: the matrix
`fromRotationTranslation(pose.rot[4b..], pose.pos[3b..])` post-multiplied by
the scale `pose.scl[3b..]`. -/
def localMat (pose : RMXPose) (b : ℕ) : Mat4 :=
  mat4scale
    (mat4fromRotationTranslation
      (readQ pose.rot (4 * b), readQ pose.rot (4 * b + 1),
        readQ pose.rot (4 * b + 2), readQ pose.rot (4 * b + 3))
      (readQ pose.pos (3 * b)) (readQ pose.pos (3 * b + 1)) (readQ pose.pos (3 * b + 2)))
    (readQ pose.scl (3 * b)) (readQ pose.scl (3 * b + 1)) (readQ pose.scl (3 * b + 2))

/-- Writes the 16 flat elements of `m` at `dest[16b .. 16b+15]`
(`dest[b * 16 + i] = mat1[i]` in the source loop). -/
def writeMat16 (dest : List ℚ) (b : ℕ) (m : Mat4) : List ℚ :=
  (List.range 16).foldl (fun d i => d.set (16 * b + i) (mat16 m i)) dest

/-- Loop of `RMXSkeletalAnimation.exportPose` over bones `b, b+1, ...`
(structural fuel; the entry point passes `fuel = skeleton.bones.length`).
Each iteration builds the bone's local matrix, composes the world matrix with
the cached parent world matrix when `parent >= 0` (reading whatever the
world-matrix list currently holds at that index, as the source does), caches it,
and writes `world * inv_bind_mat` into the destination buffer. -/
def exportPoseGo (sk : RMXSkeleton) (pose : RMXPose) :
    ℕ → ℕ → List Mat4 → List ℚ → List Mat4 × List ℚ
  | _, 0, ws, dest => (ws, dest)
  | b, fuel + 1, ws, dest =>
    let bone := sk.bones.getD b defBone
    let lm := localMat pose b
    let world :=
      if 0 ≤ bone.parent then mat4mul (ws.getD bone.parent.toNat mat4zero) lm else lm
    exportPoseGo sk pose (b + 1) fuel (ws.set b world)
      (writeMat16 dest b (mat4mul world bone.inv_bind_mat))

/-- `RMXSkeletalAnimation.exportPose(skeleton, pose, dest)`: returns the final
world-matrix list (the mutated `pose.world_matrices`) and destination buffer. -/
def exportPose (sk : RMXSkeleton) (pose : RMXPose) (dest : List ℚ) :
    List Mat4 × List ℚ :=
  exportPoseGo sk pose 0 sk.bones.length pose.world_matrices dest

/-- Specification recursion for the world matrix of bone `b`, following the
spec: `world_b = world_parent(b) * local_b` when the parent index is
non-negative, and `world_b = local_b` for root bones.  The guard
`parent.toNat < b` is exactly the topological-order invariant under which the
claim quantifies (and makes the recursion well-founded). -/
def worldSpec (sk : RMXSkeleton) (pose : RMXPose) (b : ℕ) : Mat4 :=
  if h : 0 ≤ (sk.bones.getD b defBone).parent ∧
      (sk.bones.getD b defBone).parent.toNat < b then
    mat4mul (worldSpec sk pose (sk.bones.getD b defBone).parent.toNat) (localMat pose b)
  else
    localMat pose b
termination_by b
decreasing_by exact h.2

/-- Position components written for one bone by `sampleAnimation`: linear
interpolation `s1 * track.pos[f13+k] + s2 * track.pos[f23+k]` when the track's
position array is present, else the bone's rest position. -/
def posWrite (t : RMXAnimationTrack) (bone : RMXBone) (f13 f23 : ℤ) (s1 s2 : ℚ)
    (k : ℕ) : ℚ :=
  match t.pos with
  | some tp => s1 * readQ tp (f13 + k) + s2 * readQ tp (f23 + k)
  | none => bone.pos.getD k 0

/-- Rotation components written for one bone by `sampleAnimation`: the
quaternion `slerp(track.rot[f14..], track.rot[f24..], s2)` when the track's
rotation array is present, else the bone's rest rotation. -/
def rotWrite (slerp : Quat → Quat → ℚ → Quat) (t : RMXAnimationTrack)
    (bone : RMXBone) (f14 f24 : ℤ) (s2 : ℚ) (k : ℕ) : ℚ :=
  match t.rot with
  | some tr =>
    qget
      (slerp
        (readQ tr f14, readQ tr (f14 + 1), readQ tr (f14 + 2), readQ tr (f14 + 3))
        (readQ tr f24, readQ tr (f24 + 1), readQ tr (f24 + 2), readQ tr (f24 + 3))
        s2) k
  | none => bone.rot.getD k 0

/-- Scale components written for one bone by `sampleAnimation`: linear
interpolation when the track's scale array is present, else the rest scale. -/
def sclWrite (t : RMXAnimationTrack) (bone : RMXBone) (f13 f23 : ℤ) (s1 s2 : ℚ)
    (k : ℕ) : ℚ :=
  match t.scl with
  | some ts => s1 * readQ ts (f13 + k) + s2 * readQ ts (f23 + k)
  | none => bone.scl.getD k 0

/-- Loop of `RMXSkeletalAnimation.sampleAnimation` over bones (structural fuel;
the entry point passes `fuel = skeleton.bones.length`).  Reading `tracks[b]`
when the entry is null or past the end of the list throws a TypeError in JS
(`track.pos` on null/undefined), modelled as `Except.error "TypeError"`.
The sampler is parametric in the external gl-matrix `quat.slerp`. -/
def sampleGo (slerp : Quat → Quat → ℚ → Quat) (tracks : List (Option RMXAnimationTrack))
    (bones : List RMXBone) (f13 f14 f23 f24 : ℤ) (s1 s2 : ℚ) :
    ℕ → ℕ → RMXPose → Except String RMXPose
  | _, 0, pose => Except.ok pose
  | b, fuel + 1, pose =>
    match tracks.getD b none with
    | none => Except.error "TypeError"
    | some t =>
      let bone := bones.getD b defBone
      let pos' :=
        ((pose.pos.set (3 * b) (posWrite t bone f13 f23 s1 s2 0)).set (3 * b + 1)
            (posWrite t bone f13 f23 s1 s2 1)).set (3 * b + 2)
          (posWrite t bone f13 f23 s1 s2 2)
      let rot' :=
        (((pose.rot.set (4 * b) (rotWrite slerp t bone f14 f24 s2 0)).set (4 * b + 1)
              (rotWrite slerp t bone f14 f24 s2 1)).set (4 * b + 2)
            (rotWrite slerp t bone f14 f24 s2 2)).set (4 * b + 3)
          (rotWrite slerp t bone f14 f24 s2 3)
      let scl' :=
        ((pose.scl.set (3 * b) (sclWrite t bone f13 f23 s1 s2 0)).set (3 * b + 1)
            (sclWrite t bone f13 f23 s1 s2 1)).set (3 * b + 2)
          (sclWrite t bone f13 f23 s1 s2 2)
      sampleGo slerp tracks bones f13 f14 f23 f24 s1 s2 (b + 1) fuel
        ⟨pos', rot', scl', pose.world_matrices⟩

/-- `RMXSkeletalAnimation.sampleAnimation(animation, skeleton, pose, frame)`:
wraps the frame (`looped` is the constant `true` in the source, so the live
branch is `frame % animation.frames`), derives the two keyframe indices and the
interpolation weights, and runs the per-bone loop. -/
def sampleAnimation (slerp : Quat → Quat → ℚ → Quat) (anim : RMXAnimation)
    (sk : RMXSkeleton) (pose : RMXPose) (frame : ℚ) : Except String RMXPose :=
  let looped := true
  let frame :=
    if looped then jsMod frame (anim.frames : ℚ)
    else max (min frame ((anim.frames : ℚ) - 1)) 0
  let f1 := jsIntMod ⌊frame⌋ anim.frames
  let f2 := jsIntMod ⌈frame⌉ anim.frames
  let s2 := frame - (⌊frame⌋ : ℚ)
  let s1 := 1 - s2
  sampleGo slerp anim.tracks sk.bones (f1 * 3) (f1 * 4) (f2 * 3) (f2 * 4) s1 s2 0
    sk.bones.length pose

/-- Concrete quaternion interpolation used to instantiate the parametric
`quat.slerp` in witnesses: componentwise linear interpolation, which agrees
with slerp at the endpoints `s = 0` and `s = 1`. -/
def lerpQuat (a b : Quat) (s : ℚ) : Quat :=
  ((1 - s) * qget a 0 + s * qget b 0, (1 - s) * qget a 1 + s * qget b 1,
    (1 - s) * qget a 2 + s * qget b 2, (1 - s) * qget a 3 + s * qget b 3)

/-- Two nullable tracks agree on everything the sampler reads (their
position/rotation/scale arrays); the `bone` index field is unconstrained. -/
def trackMatch : Option RMXAnimationTrack → Option RMXAnimationTrack → Prop
  | none, none => True
  | some t₁, some t₂ => t₁.pos = t₂.pos ∧ t₁.rot = t₂.rot ∧ t₁.scl = t₂.scl
  | _, _ => False

/-- Log severities used by the loader (`LogLevel` in the source). -/
inductive LogLevel where
  | Warning
  | Error
  | Exception
deriving DecidableEq

/-- One entry written to the structured log sink: message and severity. -/
structure LogEntry where
  msg : String
  level : LogLevel
deriving DecidableEq

/-- JavaScript string coercion of a nullable string field during `+`
concatenation: `null` renders as the string `"null"`. -/
def jsStr (s : Option String) : String := s.getD "null"

/-- The fields of `COLLADA.Loader.Source` that `parseAccessor` touches:
element id, raw-array child id, and the accessor numbers (all initialized to
null by the constructor). -/
structure LoaderSource where
  id : Option String
  sourceId : Option String
  count : Option ℤ
  stride : Option ℤ
  offset : Option ℤ
deriving DecidableEq

/-- Modelled from the spec: `context.getAttributeAsString(node, name, default,
required)` (context.ts is not in the repository).  A missing required
attribute is a fatal parse error per the spec's error taxonomy; a missing
optional attribute yields the default. -/
def getAttributeAsString (attr : Option String) (defaultValue : Option String)
    (required : Bool) : Except String (Option String) :=
  match attr with
  | some s => Except.ok (some s)
  | none =>
    if required then Except.error "missing required attribute"
    else Except.ok defaultValue

/-- Modelled from the spec: `context.getAttributeAsInt(node, name, default,
required)` (context.ts is not in the repository), with the same missing
attribute behaviour as the string version. -/
def getAttributeAsInt (attr : Option ℤ) (defaultValue : ℤ) (required : Bool) :
    Except String ℤ :=
  match attr with
  | some n => Except.ok n
  | none =>
    if required then Except.error "missing required attribute"
    else Except.ok defaultValue

/-- `COLLADA.Loader.Source.parseAccessor`: reads the required `source`
attribute and the `count`/`stride`/`offset` attributes (defaults 0, 1, 0;
`count` required), and if the accessor's source id differs from `"#" +
source.sourceId` writes the non-local data source message to the log at
Error severity and continues; the updated source and the emitted log entries
are returned.  The `<param>` children only fill the source's parameter map and
log warnings; they are not modelled here. -/
def parseAccessor (srcAttr : Option String) (countAttr strideAttr offsetAttr : Option ℤ)
    (source : LoaderSource) : Except String (LoaderSource × List LogEntry) := do
  let sourceId ← getAttributeAsString srcAttr none true
  let count ← getAttributeAsInt countAttr 0 true
  let stride ← getAttributeAsInt strideAttr 1 false
  let offset ← getAttributeAsInt offsetAttr 0 false
  let logs :=
    if sourceId ≠ some ("#" ++ jsStr source.sourceId) then
      [LogEntry.mk
        ("Source " ++ jsStr source.id ++
          " uses a non-local data source, this is not supported")
        LogLevel.Error]
    else []
  Except.ok
    ({ source with count := some count, stride := some stride, offset := some offset },
      logs)

/-- The identity matrix, used as a concrete inverse bind matrix. -/
def idMat : Mat4 := fun i j => if i = j then 1 else 0

/-- Concrete root bone used by witnesses. -/
def boneW : RMXBone :=
  { name := "root", parent := -1, skinned := true, inv_bind_mat := idMat,
    pos := [0, 0, 0], rot := [0, 0, 0, 1], scl := [1, 1, 1] }

/-- Concrete child bone (parent index 0) used by witnesses. -/
def boneW2 : RMXBone :=
  { name := "child", parent := 0, skinned := true, inv_bind_mat := idMat,
    pos := [1, 0, 0], rot := [0, 0, 0, 1], scl := [1, 1, 1] }

/-- Concrete one-bone skeleton used by witnesses. -/
def skW : RMXSkeleton := ⟨[boneW]⟩

/-- Concrete two-bone chain skeleton used by witnesses. -/
def skW2 : RMXSkeleton := ⟨[boneW, boneW2]⟩

/-- Concrete pose buffer sized for one bone. -/
def poseW : RMXPose :=
  { pos := [0, 0, 0], rot := [0, 0, 0, 1], scl := [1, 1, 1],
    world_matrices := [mat4zero] }

/-- Concrete pose buffer sized for two bones. -/
def poseW2 : RMXPose :=
  { pos := [0, 0, 0, 0, 0, 0], rot := [0, 0, 0, 1, 0, 0, 0, 1],
    scl := [1, 1, 1, 1, 1, 1], world_matrices := [mat4zero, mat4zero] }

/-- Concrete destination buffer sized for one bone. -/
def destW : List ℚ := List.replicate 16 0

/-- Concrete animated track: two position keyframes, no rotation or scale. -/
def trackW : RMXAnimationTrack :=
  { bone := 0, pos := some [0, 0, 0, 2, 0, 0], rot := none, scl := none }

/-- Concrete two-frame animation whose single track is `trackW`. -/
def animW : RMXAnimation := { name := "walk", frames := 2, fps := 30, tracks := [some trackW] }

/-- Concrete animation whose single track entry is null. -/
def animN : RMXAnimation := { name := "bad", frames := 1, fps := 30, tracks := [none] }

/-- Concrete two-track animation whose second track entry is null. -/
def animN2 : RMXAnimation :=
  { name := "bad2", frames := 1, fps := 30, tracks := [some trackW, none] }

/-- Concrete zero-frame animation with a non-null track. -/
def animZ : RMXAnimation := { name := "zero", frames := 0, fps := 30, tracks := [some trackW] }

/-- Concrete zero-frame animation whose track has no component arrays. -/
def animZ2 : RMXAnimation :=
  { name := "zero2", frames := 0, fps := 30,
    tracks := [some { bone := 0, pos := none, rot := none, scl := none }] }

/-- Concrete animation used on the left of the bone-field independence witness. -/
def animB1 : RMXAnimation :=
  { name := "b", frames := 1, fps := 30,
    tracks := [some { bone := 0, pos := some [1, 2, 3], rot := none, scl := none }] }

/-- Same animation as `animB1` except for the track's `bone` index field. -/
def animB2 : RMXAnimation :=
  { name := "b", frames := 1, fps := 30,
    tracks := [some { bone := 7, pos := some [1, 2, 3], rot := none, scl := none }] }

/-- Concrete loader source whose raw-array child is `positions-array`. -/
def srcW : LoaderSource :=
  { id := some "positions", sourceId := some "positions-array",
    count := none, stride := none, offset := none }


/-! ## Helper lemmas -/

theorem getD_set_self {α : Type} (l : List α) (i : ℕ) (a d : α) (h : i < l.length) :
    (l.set i a).getD i d = a := by
  simp [List.getD_eq_getElem?_getD, List.getElem?_set_self h]

theorem getD_set_ne {α : Type} (l : List α) (i j : ℕ) (a d : α) (h : i ≠ j) :
    (l.set i a).getD j d = l.getD j d := by
  simp [List.getD_eq_getElem?_getD, List.getElem?_set_ne h]

theorem capacity_mono {a b : ℕ} (h : a ≤ b) : capacity a ≤ capacity b := by
  unfold capacity
  have ha : (a : ℚ) ≤ (b : ℚ) := by exact_mod_cast h
  gcongr

theorem optimalSizeGo_spec (bones : ℕ) :
    ∀ (fuel k : ℕ), 1 ≤ k → 2 ^ k ≤ 2048 → 12 ≤ k + fuel →
      (∀ m, 1 ≤ m → m < k → capacity (2 ^ m) < (bones : ℚ)) →
      ((∀ s, optimalSizeGo bones (2 ^ k) fuel = Except.ok s →
          (∃ j, s = 2 ^ (j + 1)) ∧ (bones : ℚ) ≤ capacity s ∧
            ∀ m, 1 ≤ m → 2 ^ m < s → capacity (2 ^ m) < (bones : ℚ)) ∧
        (optimalSizeGo bones (2 ^ k) fuel = Except.error "Too many bones" ↔
          1048576 < bones)) := by
  intro fuel
  induction fuel with
  | zero =>
    intro k hk1 hk2 hk3 _
    exfalso
    have h12 : (2 : ℕ) ^ 12 ≤ 2 ^ k := Nat.pow_le_pow_right (by norm_num) (by omega)
    norm_num at h12
    omega
  | succ fuel ih =>
    intro k hk1 hk2 hk3 hmin
    by_cases hcap : capacity (2 ^ k) < (bones : ℚ)
    · by_cases hbig : 2048 < 2 ^ k * 2
      · have hk11 : k = 11 := by
          have h1 : k ≤ 11 := by
            by_contra hgt
            have h12 : (2 : ℕ) ^ 12 ≤ 2 ^ k := Nat.pow_le_pow_right (by norm_num) (by omega)
            norm_num at h12
            omega
          have h2 : 11 ≤ k := by
            by_contra hlt
            have hs : (2 : ℕ) ^ (k + 1) ≤ 2 ^ 11 := Nat.pow_le_pow_right (by norm_num) (by omega)
            rw [pow_succ] at hs
            norm_num at hs
            omega
          omega
        have hbones : 1048576 < bones := by
          have hc : capacity 2048 < (bones : ℚ) := by
            have h2048 : (2 : ℕ) ^ 11 = 2048 := by norm_num
            rw [hk11, h2048] at hcap
            exact hcap
          rw [show capacity 2048 = ((1048576 : ℕ) : ℚ) by norm_num [capacity]] at hc
          exact_mod_cast hc
        have herr : optimalSizeGo bones (2 ^ k) (fuel + 1) =
            Except.error "Too many bones" := by
          simp only [optimalSizeGo]
          rw [if_pos hcap, if_pos hbig]
        constructor
        · intro s hs
          rw [herr] at hs
          exact Except.noConfusion hs
        · rw [herr]
          exact ⟨fun _ => hbones, fun _ => rfl⟩
      · have hrec : optimalSizeGo bones (2 ^ k) (fuel + 1) =
            optimalSizeGo bones (2 ^ (k + 1)) fuel := by
          simp only [optimalSizeGo]
          rw [if_pos hcap, if_neg hbig, pow_succ]
        have hstep := ih (k + 1) (by omega) (by rw [pow_succ]; omega) (by omega)
          (by
            intro m hm1 hmk
            by_cases hmk' : m < k
            · exact hmin m hm1 hmk'
            · rw [show m = k by omega]
              exact hcap)
        rw [hrec]
        exact hstep
    · have hle : (bones : ℚ) ≤ capacity (2 ^ k) := not_lt.mp hcap
      have hres : optimalSizeGo bones (2 ^ k) (fuel + 1) = Except.ok (2 ^ k) := by
        simp only [optimalSizeGo]
        rw [if_neg hcap]
      constructor
      · intro s hs
        rw [hres] at hs
        injection hs with hs
        subst hs
        refine ⟨⟨k - 1, by congr 1; omega⟩, hle, ?_⟩
        intro m hm1 hms
        exact hmin m hm1 ((Nat.pow_lt_pow_iff_right (by norm_num)).mp hms)
      · rw [hres]
        constructor
        · intro h
          exact Except.noConfusion h
        · intro hbones
          exfalso
          have hcm : capacity (2 ^ k) ≤ capacity 2048 := capacity_mono hk2
          have hb : (bones : ℚ) ≤ ((1048576 : ℕ) : ℚ) := by
            have := le_trans hle hcm
            rwa [show capacity 2048 = ((1048576 : ℕ) : ℚ) by norm_num [capacity]] at this
          have : bones ≤ 1048576 := by exact_mod_cast hb
          omega

/-- C5: `optimalSize` returns the smallest power-of-two side, doubling from a
minimum of 2, whose capacity (`size * size / 4`) covers the bone count, and it
throws the capacity error `"Too many bones"` exactly when the required side
would exceed 2048, that is, exactly when the bone count exceeds
`capacity 2048 = 1048576`. -/
theorem optimalSize_spec (bones : ℕ) :
    (∀ s, optimalSize bones = Except.ok s →
      (∃ j, s = 2 ^ (j + 1)) ∧ (bones : ℚ) ≤ capacity s ∧
        ∀ m, 1 ≤ m → 2 ^ m < s → capacity (2 ^ m) < (bones : ℚ)) ∧
    (optimalSize bones = Except.error "Too many bones" ↔ 1048576 < bones) := by
  have h := optimalSizeGo_spec bones 11 1 (by norm_num) (by norm_num) (by norm_num)
    (by intro m hm1 hm; omega)
  rw [show optimalSize bones = optimalSizeGo bones (2 ^ 1) 11 by norm_num [optimalSize]]
  exact h

/-- C5 (witness): the capacity error is raised for 1048577 bones, one more
than the ceiling capacity. -/
theorem optimalSize_spec_witness :
    optimalSize 1048577 = Except.error "Too many bones" :=
  (optimalSize_spec 1048577).2.mpr (by norm_num)

/-- C6 (counterexample): `optimalSize 100000` does not raise the capacity
error, contrary to the claim that it throws. -/
theorem optimalSize_100000_no_error :
    optimalSize 100000 ≠ Except.error "Too many bones" := by
  rw [show optimalSize 100000 = Except.ok 1024 by
    norm_num [optimalSize, optimalSizeGo, capacity]]
  intro hc
  exact Except.noConfusion hc

/-- C6 (amended): `optimalSize 100000` returns the side 1024, whose capacity
`1024 * 1024 / 4 = 262144` covers 100000 bones; no error is raised. -/
theorem optimalSize_100000_returns : optimalSize 100000 = Except.ok 1024 := by
  norm_num [optimalSize, optimalSizeGo, capacity]

/-- C8 (counterexample): two materials that differ in their diffuse and
specular fields but produce the same hash, because a separator character
embedded in a field collides with the hash's field separator. -/
theorem material_hash_collision :
    RMXMaterial.hash ⟨some "a|", some "", some ""⟩ =
      RMXMaterial.hash ⟨some "a", some "|", some ""⟩ ∧
    (⟨some "a|", some "", some ""⟩ : RMXMaterial).diffuse ≠
      (⟨some "a", some "|", some ""⟩ : RMXMaterial).diffuse := by
  constructor
  · decide
  · decide

/-- C8 (amended): materials whose diffuse/specular/normal fields are pairwise
identical have identical hashes; the converse direction of the claim fails
(the hash is not injective, see the collision counterexample). -/
theorem material_hash_congr (m₁ m₂ : RMXMaterial) (hd : m₁.diffuse = m₂.diffuse)
    (hs : m₁.specular = m₂.specular) (hn : m₁.normal = m₂.normal) :
    m₁.hash = m₂.hash := by
  simp [RMXMaterial.hash, hd, hs, hn]

/-- C8 (witness): the hash congruence applied at two concrete materials with
identical field triples. -/
theorem material_hash_congr_witness :
    RMXMaterial.hash ⟨some "d.png", some "s.png", none⟩ =
      RMXMaterial.hash ⟨some "d.png", some "s.png", none⟩ :=
  material_hash_congr ⟨some "d.png", some "s.png", none⟩ ⟨some "d.png", some "s.png", none⟩
    rfl rfl rfl

/-- C7 (counterexample): parsing an accessor whose source id does not match
the sibling raw-array id returns normally (the parse continues); it is not a
fatal abort. -/
theorem parseAccessor_mismatch_not_fatal :
    isOkE (parseAccessor (some "#other-array") (some 3) none none srcW) = true := rfl

/-- C7 (amended): a mismatched accessor source id is not fatal: `parseAccessor`
stores the accessor numbers, emits the non-local data source message at Error
severity to the log, and returns normally so that parsing continues. -/
theorem parseAccessor_mismatch_logs_and_continues (s : String) (c : ℤ)
    (strideAttr offsetAttr : Option ℤ) (source : LoaderSource)
    (h : s ≠ "#" ++ jsStr source.sourceId) :
    parseAccessor (some s) (some c) strideAttr offsetAttr source =
      Except.ok
        ({ source with
            count := some c
            stride := some (strideAttr.getD 1)
            offset := some (offsetAttr.getD 0) },
          [LogEntry.mk
            ("Source " ++ jsStr source.id ++
              " uses a non-local data source, this is not supported")
            LogLevel.Error]) := by
  cases strideAttr <;> cases offsetAttr <;>
    simp [parseAccessor, getAttributeAsString, getAttributeAsInt, Bind.bind, Except.bind, h]

/-- C7 (witness): the mismatch behaviour at a concrete accessor. -/
theorem parseAccessor_mismatch_witness :
    parseAccessor (some "#elsewhere") (some 5) (some 3) none srcW =
      Except.ok
        ({ srcW with
            count := some 5
            stride := some 3
            offset := some 0 },
          [LogEntry.mk
            ("Source " ++ jsStr srcW.id ++
              " uses a non-local data source, this is not supported")
            LogLevel.Error]) :=
  parseAccessor_mismatch_logs_and_continues "#elsewhere" 5 (some 3) none srcW (by decide)

theorem readQ_natCast (l : List ℚ) (n : ℕ) : readQ l (n : ℤ) = l.getD n 0 := by
  simp [readQ]

theorem readQ_eq_getD (l : List ℚ) (i : ℤ) (n : ℕ) (h : i = (n : ℤ)) :
    readQ l i = l.getD n 0 := by
  subst h
  simp [readQ]

theorem ratTrunc_of_lt_one {q : ℚ} (h0 : 0 ≤ q) (h1 : q < 1) : ratTrunc q = 0 := by
  unfold ratTrunc
  refine Int.tdiv_eq_zero_of_lt (Rat.num_nonneg.mpr h0) ?_
  have hden : (0 : ℚ) < (q.den : ℚ) := by exact_mod_cast q.pos
  have h2 : (q.num : ℚ) / (q.den : ℚ) < 1 := by
    rw [Rat.num_div_den]
    exact h1
  exact_mod_cast (div_lt_one hden).mp h2

theorem jsMod_zero_left (b : ℚ) : jsMod 0 b = 0 := by
  simp [jsMod, ratTrunc]

theorem jsMod_nat_lt (f n : ℕ) (h : f < n) : jsMod (f : ℚ) (n : ℚ) = (f : ℚ) := by
  have hn : (0 : ℚ) < n := by exact_mod_cast (show 0 < n by omega)
  have h0 : (0 : ℚ) ≤ (f : ℚ) / (n : ℚ) := by positivity
  have h1 : (f : ℚ) / (n : ℚ) < 1 := by
    rw [div_lt_one hn]
    exact_mod_cast h
  simp [jsMod, ratTrunc_of_lt_one h0 h1]

theorem jsMod_nat_self (n : ℕ) (h : 0 < n) : jsMod (n : ℚ) (n : ℚ) = 0 := by
  have hn : (n : ℚ) ≠ 0 := by
    have : (0 : ℚ) < n := by exact_mod_cast h
    exact ne_of_gt this
  unfold jsMod
  rw [div_self hn]
  rw [show ratTrunc 1 = 1 by rfl]
  push_cast
  ring

theorem jsIntMod_of_nat_lt (f n : ℕ) (h : f < n) : jsIntMod (f : ℤ) n = (f : ℤ) := by
  unfold jsIntMod
  rw [Int.tdiv_eq_zero_of_lt (by exact_mod_cast Nat.zero_le f) (by exact_mod_cast h)]
  ring

theorem lerpQuat_same_zero (q : Quat) : lerpQuat q q 0 = q := by
  obtain ⟨x, y, z, w⟩ := q
  norm_num [lerpQuat, qget]

theorem posWrite_congr {t₁ t₂ : RMXAnimationTrack} (h : t₁.pos = t₂.pos)
    (bone : RMXBone) (f13 f23 : ℤ) (s1 s2 : ℚ) (k : ℕ) :
    posWrite t₁ bone f13 f23 s1 s2 k = posWrite t₂ bone f13 f23 s1 s2 k := by
  simp only [posWrite, h]

theorem rotWrite_congr (slerp : Quat → Quat → ℚ → Quat)
    {t₁ t₂ : RMXAnimationTrack} (h : t₁.rot = t₂.rot)
    (bone : RMXBone) (f14 f24 : ℤ) (s2 : ℚ) (k : ℕ) :
    rotWrite slerp t₁ bone f14 f24 s2 k = rotWrite slerp t₂ bone f14 f24 s2 k := by
  simp only [rotWrite, h]

theorem sclWrite_congr {t₁ t₂ : RMXAnimationTrack} (h : t₁.scl = t₂.scl)
    (bone : RMXBone) (f13 f23 : ℤ) (s1 s2 : ℚ) (k : ℕ) :
    sclWrite t₁ bone f13 f23 s1 s2 k = sclWrite t₂ bone f13 f23 s1 s2 k := by
  simp only [sclWrite, h]

theorem sampleGo_spec (slerp : Quat → Quat → ℚ → Quat)
    (tracks : List (Option RMXAnimationTrack)) (bones : List RMXBone)
    (f13 f14 f23 f24 : ℤ) (s1 s2 : ℚ) :
    ∀ (fuel b : ℕ) (pose p : RMXPose),
      b + fuel = bones.length →
      3 * bones.length ≤ pose.pos.length →
      4 * bones.length ≤ pose.rot.length →
      3 * bones.length ≤ pose.scl.length →
      sampleGo slerp tracks bones f13 f14 f23 f24 s1 s2 b fuel pose = Except.ok p →
      ((∀ j, j < 3 * b → p.pos.getD j 0 = pose.pos.getD j 0) ∧
        (∀ j, j < 4 * b → p.rot.getD j 0 = pose.rot.getD j 0) ∧
        (∀ j, j < 3 * b → p.scl.getD j 0 = pose.scl.getD j 0)) ∧
      ∀ c, b ≤ c → c < bones.length → ∀ t, tracks.getD c none = some t →
        (∀ k, k < 3 → p.pos.getD (3 * c + k) 0 =
          posWrite t (bones.getD c defBone) f13 f23 s1 s2 k) ∧
        (∀ k, k < 4 → p.rot.getD (4 * c + k) 0 =
          rotWrite slerp t (bones.getD c defBone) f14 f24 s2 k) ∧
        (∀ k, k < 3 → p.scl.getD (3 * c + k) 0 =
          sclWrite t (bones.getD c defBone) f13 f23 s1 s2 k) := by
  intro fuel
  induction fuel with
  | zero =>
    intro b pose p hb _ _ _ hok
    simp only [sampleGo] at hok
    injection hok with hok
    subst hok
    refine ⟨⟨fun j _ => rfl, fun j _ => rfl, fun j _ => rfl⟩, ?_⟩
    intro c hc1 hc2 _ _
    omega
  | succ fuel ih =>
    intro b pose p hb hp hr hs hok
    simp only [sampleGo] at hok
    rcases htr : tracks.getD b none with _ | t
    · rw [htr] at hok
      exact absurd hok (by simp)
    · rw [htr] at hok
      simp only [] at hok
      have hmain := ih (b + 1) _ p (by omega) (by simpa using hp) (by simpa using hr)
        (by simpa using hs) hok
      simp only [] at hmain
      have hb' : b < bones.length := by omega
      have hpresP : ∀ j, j < 3 * b → p.pos.getD j 0 = pose.pos.getD j 0 := by
        intro j hj
        rw [hmain.1.1 j (by omega)]
        rw [getD_set_ne _ _ _ _ _ (by omega), getD_set_ne _ _ _ _ _ (by omega),
          getD_set_ne _ _ _ _ _ (by omega)]
      have hpresR : ∀ j, j < 4 * b → p.rot.getD j 0 = pose.rot.getD j 0 := by
        intro j hj
        rw [hmain.1.2.1 j (by omega)]
        rw [getD_set_ne _ _ _ _ _ (by omega), getD_set_ne _ _ _ _ _ (by omega),
          getD_set_ne _ _ _ _ _ (by omega), getD_set_ne _ _ _ _ _ (by omega)]
      have hpresS : ∀ j, j < 3 * b → p.scl.getD j 0 = pose.scl.getD j 0 := by
        intro j hj
        rw [hmain.1.2.2 j (by omega)]
        rw [getD_set_ne _ _ _ _ _ (by omega), getD_set_ne _ _ _ _ _ (by omega),
          getD_set_ne _ _ _ _ _ (by omega)]
      have hbumpP : ∀ k, k < 3 → p.pos.getD (3 * b + k) 0 =
          posWrite t (bones.getD b defBone) f13 f23 s1 s2 k := by
        intro k hk
        rw [hmain.1.1 (3 * b + k) (by omega)]
        interval_cases k
        · rw [getD_set_ne _ _ _ _ _ (by omega), getD_set_ne _ _ _ _ _ (by omega)]
          exact getD_set_self _ _ _ _ (by omega)
        · rw [getD_set_ne _ _ _ _ _ (by omega)]
          exact getD_set_self _ _ _ _ (by simp; omega)
        · exact getD_set_self _ _ _ _ (by simp; omega)
      have hbumpR : ∀ k, k < 4 → p.rot.getD (4 * b + k) 0 =
          rotWrite slerp t (bones.getD b defBone) f14 f24 s2 k := by
        intro k hk
        rw [hmain.1.2.1 (4 * b + k) (by omega)]
        interval_cases k
        · rw [getD_set_ne _ _ _ _ _ (by omega), getD_set_ne _ _ _ _ _ (by omega),
            getD_set_ne _ _ _ _ _ (by omega)]
          exact getD_set_self _ _ _ _ (by omega)
        · rw [getD_set_ne _ _ _ _ _ (by omega), getD_set_ne _ _ _ _ _ (by omega)]
          exact getD_set_self _ _ _ _ (by simp; omega)
        · rw [getD_set_ne _ _ _ _ _ (by omega)]
          exact getD_set_self _ _ _ _ (by simp; omega)
        · exact getD_set_self _ _ _ _ (by simp; omega)
      have hbumpS : ∀ k, k < 3 → p.scl.getD (3 * b + k) 0 =
          sclWrite t (bones.getD b defBone) f13 f23 s1 s2 k := by
        intro k hk
        rw [hmain.1.2.2 (3 * b + k) (by omega)]
        interval_cases k
        · rw [getD_set_ne _ _ _ _ _ (by omega), getD_set_ne _ _ _ _ _ (by omega)]
          exact getD_set_self _ _ _ _ (by omega)
        · rw [getD_set_ne _ _ _ _ _ (by omega)]
          exact getD_set_self _ _ _ _ (by simp; omega)
        · exact getD_set_self _ _ _ _ (by simp; omega)
      refine ⟨⟨hpresP, hpresR, hpresS⟩, ?_⟩
      intro c hc1 hc2 t' ht'
      rcases Nat.eq_or_lt_of_le hc1 with hceq | hclt
      · subst hceq
        rw [htr] at ht'
        injection ht' with ht'
        subst ht'
        exact ⟨hbumpP, hbumpR, hbumpS⟩
      · exact hmain.2 c (by omega) hc2 t' ht'

theorem sampleGo_none_error (slerp : Quat → Quat → ℚ → Quat)
    (tracks : List (Option RMXAnimationTrack)) (bones : List RMXBone)
    (f13 f14 f23 f24 : ℤ) (s1 s2 : ℚ) :
    ∀ (fuel b : ℕ) (pose : RMXPose) (c : ℕ), b + fuel = bones.length → b ≤ c →
      c < bones.length → tracks.getD c none = none →
      sampleGo slerp tracks bones f13 f14 f23 f24 s1 s2 b fuel pose =
        Except.error "TypeError" := by
  intro fuel
  induction fuel with
  | zero =>
    intro b pose c hb hc1 hc2 _
    omega
  | succ fuel ih =>
    intro b pose c hb hc1 hc2 hnone
    simp only [sampleGo]
    rcases htr : tracks.getD b none with _ | t
    · rfl
    · have hne : b ≠ c := by
        intro hbc
        rw [hbc, hnone] at htr
        exact Option.noConfusion htr
      exact ih (b + 1) _ c (by omega) (by omega) hc2 hnone

theorem sampleGo_ok_of_tracks (slerp : Quat → Quat → ℚ → Quat)
    (tracks : List (Option RMXAnimationTrack)) (bones : List RMXBone)
    (f13 f14 f23 f24 : ℤ) (s1 s2 : ℚ) :
    ∀ (fuel b : ℕ) (pose : RMXPose),
      (∀ c, b ≤ c → c < b + fuel → tracks.getD c none ≠ none) →
      isOkE (sampleGo slerp tracks bones f13 f14 f23 f24 s1 s2 b fuel pose) = true := by
  intro fuel
  induction fuel with
  | zero =>
    intro b pose _
    rfl
  | succ fuel ih =>
    intro b pose ht
    simp only [sampleGo]
    rcases htr : tracks.getD b none with _ | t
    · exact absurd htr (ht b (le_refl b) (by omega))
    · exact ih (b + 1) _ (fun c hc1 hc2 => ht c (by omega) (by omega))

theorem sampleGo_congr (slerp : Quat → Quat → ℚ → Quat)
    (tr₁ tr₂ : List (Option RMXAnimationTrack)) (bones : List RMXBone)
    (f13 f14 f23 f24 : ℤ) (s1 s2 : ℚ)
    (ht : ∀ c, trackMatch (tr₁.getD c none) (tr₂.getD c none)) :
    ∀ (fuel b : ℕ) (pose : RMXPose),
      sampleGo slerp tr₁ bones f13 f14 f23 f24 s1 s2 b fuel pose =
        sampleGo slerp tr₂ bones f13 f14 f23 f24 s1 s2 b fuel pose := by
  intro fuel
  induction fuel with
  | zero =>
    intro b pose
    rfl
  | succ fuel ih =>
    intro b pose
    have hc := ht b
    simp only [sampleGo]
    rcases h1 : tr₁.getD b none with _ | t₁
    · rcases h2 : tr₂.getD b none with _ | t₂
      · rfl
      · rw [h1, h2] at hc
        simp only [trackMatch] at hc
    · rcases h2 : tr₂.getD b none with _ | t₂
      · rw [h1, h2] at hc
        simp only [trackMatch] at hc
      · rw [h1, h2] at hc
        simp only [trackMatch] at hc
        simp only [posWrite_congr hc.1, rotWrite_congr slerp hc.2.1, sclWrite_congr hc.2.2]
        exact ih (b + 1) _

theorem sampleAnimation_int_frame_eq (slerp : Quat → Quat → ℚ → Quat)
    (anim : RMXAnimation) (sk : RMXSkeleton) (pose : RMXPose) (f : ℕ)
    (hf : f < anim.frames) :
    sampleAnimation slerp anim sk pose (f : ℚ) =
      sampleGo slerp anim.tracks sk.bones ((f : ℤ) * 3) ((f : ℤ) * 4) ((f : ℤ) * 3)
        ((f : ℤ) * 4) 1 0 0 sk.bones.length pose := by
  simp only [sampleAnimation, if_true]
  rw [jsMod_nat_lt f anim.frames hf]
  rw [Int.floor_natCast, Int.ceil_natCast, jsIntMod_of_nat_lt f anim.frames hf]
  rw [Int.cast_natCast, sub_self, sub_zero]

/-- C2: sampling at an exact integer frame `f` with `0 ≤ f < frameCount`
writes, for every track component that is present, exactly the stored
keyframe-`f` values (the interpolation weight `s2` is 0, so positions and
scales are unblended and the written rotation is the stored quaternion at
`f`); and sampling at `frame = frameCount` (the animation loops) produces
exactly the same result as sampling at frame 0.  The sampler is parametric in
the external gl-matrix `quat.slerp`, assumed only to satisfy
`slerp q q 0 = q`, which holds for slerp at the endpoint. -/
theorem sampleAnimation_integer_frame (slerp : Quat → Quat → ℚ → Quat)
    (anim : RMXAnimation) (sk : RMXSkeleton) (pose : RMXPose) (f : ℕ)
    (hfr : 1 ≤ anim.frames) (hf : f < anim.frames)
    (hslerp : ∀ q : Quat, slerp q q 0 = q)
    (hp : 3 * sk.bones.length ≤ pose.pos.length)
    (hr : 4 * sk.bones.length ≤ pose.rot.length)
    (hs : 3 * sk.bones.length ≤ pose.scl.length) :
    (∀ p, sampleAnimation slerp anim sk pose (f : ℚ) = Except.ok p →
      ∀ b, b < sk.bones.length → ∀ t, anim.tracks.getD b none = some t →
        (∀ tp, t.pos = some tp → ∀ k, k < 3 →
          p.pos.getD (3 * b + k) 0 = tp.getD (3 * f + k) 0) ∧
        (∀ tr, t.rot = some tr → ∀ k, k < 4 →
          p.rot.getD (4 * b + k) 0 = tr.getD (4 * f + k) 0) ∧
        (∀ ts, t.scl = some ts → ∀ k, k < 3 →
          p.scl.getD (3 * b + k) 0 = ts.getD (3 * f + k) 0)) ∧
    sampleAnimation slerp anim sk pose ((anim.frames : ℕ) : ℚ) =
      sampleAnimation slerp anim sk pose 0 := by
  constructor
  · intro p hok b hb t htr
    rw [sampleAnimation_int_frame_eq slerp anim sk pose f hf] at hok
    have hmain := sampleGo_spec slerp anim.tracks sk.bones ((f : ℤ) * 3) ((f : ℤ) * 4)
      ((f : ℤ) * 3) ((f : ℤ) * 4) 1 0 sk.bones.length 0 pose p (by omega) hp hr hs hok
    have hbone := hmain.2 b (by omega) hb t htr
    refine ⟨?_, ?_, ?_⟩
    · intro tp htp k hk
      rw [hbone.1 k hk]
      simp only [posWrite, htp]
      rw [readQ_eq_getD tp _ (3 * f + k) (by push_cast; ring)]
      ring
    · intro tr htr' k hk
      rw [hbone.2.1 k hk]
      simp only [rotWrite, htr']
      rw [hslerp]
      interval_cases k
      · simp only [qget]
        exact readQ_eq_getD tr _ (4 * f + 0) (by push_cast; ring)
      · simp only [qget]
        exact readQ_eq_getD tr _ (4 * f + 1) (by push_cast; ring)
      · simp only [qget]
        exact readQ_eq_getD tr _ (4 * f + 2) (by push_cast; ring)
      · simp only [qget]
        exact readQ_eq_getD tr _ (4 * f + 3) (by push_cast; ring)
    · intro ts hts k hk
      rw [hbone.2.2 k hk]
      simp only [sclWrite, hts]
      rw [readQ_eq_getD ts _ (3 * f + k) (by push_cast; ring)]
      ring
  · simp only [sampleAnimation, if_true]
    rw [jsMod_nat_self anim.frames (by omega), jsMod_zero_left]

/-- C2 (witness): the loop-equality half applied at a concrete two-frame
animation, with the parametric slerp instantiated by the endpoint-exact
linear interpolation. -/
theorem sampleAnimation_integer_frame_witness :
    sampleAnimation lerpQuat animW skW poseW ((animW.frames : ℕ) : ℚ) =
      sampleAnimation lerpQuat animW skW poseW 0 :=
  (sampleAnimation_integer_frame lerpQuat animW skW poseW 0 (by decide) (by decide)
    lerpQuat_same_zero (by decide) (by decide) (by decide)).2

/-- C3 (counterexample): an animation whose single track entry is null makes
`sampleAnimation` throw a TypeError (reading `.pos` of null); the call is not
total and no rest values are written for that bone. -/
theorem sampleAnimation_null_track_throws :
    sampleAnimation lerpQuat animN skW poseW 0 = Except.error "TypeError" := rfl

/-- C3 (amended): when the track for a bone is present but one of its
position/rotation/scale arrays is null, `sampleAnimation` writes the bone's
rest value for that component; a null (or missing) track entry itself,
however, makes the whole call fail with a TypeError instead of falling back
to rest values. -/
theorem sampleAnimation_missing_components (slerp : Quat → Quat → ℚ → Quat)
    (anim : RMXAnimation) (sk : RMXSkeleton) (pose : RMXPose) (frame : ℚ)
    (hp : 3 * sk.bones.length ≤ pose.pos.length)
    (hr : 4 * sk.bones.length ≤ pose.rot.length)
    (hs : 3 * sk.bones.length ≤ pose.scl.length) :
    (∀ p, sampleAnimation slerp anim sk pose frame = Except.ok p →
      ∀ b, b < sk.bones.length → ∀ t, anim.tracks.getD b none = some t →
        (t.pos = none → ∀ k, k < 3 →
          p.pos.getD (3 * b + k) 0 = (sk.bones.getD b defBone).pos.getD k 0) ∧
        (t.rot = none → ∀ k, k < 4 →
          p.rot.getD (4 * b + k) 0 = (sk.bones.getD b defBone).rot.getD k 0) ∧
        (t.scl = none → ∀ k, k < 3 →
          p.scl.getD (3 * b + k) 0 = (sk.bones.getD b defBone).scl.getD k 0)) ∧
    ∀ b, b < sk.bones.length → anim.tracks.getD b none = none →
      sampleAnimation slerp anim sk pose frame = Except.error "TypeError" := by
  constructor
  · intro p hok b hb t htr
    simp only [sampleAnimation] at hok
    have hmain := sampleGo_spec slerp anim.tracks sk.bones _ _ _ _ _ _
      sk.bones.length 0 pose p (by omega) hp hr hs hok
    have hbone := hmain.2 b (by omega) hb t htr
    refine ⟨?_, ?_, ?_⟩
    · intro hnone k hk
      rw [hbone.1 k hk]
      simp only [posWrite, hnone]
    · intro hnone k hk
      rw [hbone.2.1 k hk]
      simp only [rotWrite, hnone]
    · intro hnone k hk
      rw [hbone.2.2 k hk]
      simp only [sclWrite, hnone]
  · intro b hb hnone
    simp only [sampleAnimation]
    exact sampleGo_none_error slerp anim.tracks sk.bones _ _ _ _ _ _
      sk.bones.length 0 pose b (by omega) (by omega) hb hnone

/-- C3 (witness): the failure half applied at a two-bone skeleton whose
second track entry is null. -/
theorem sampleAnimation_missing_components_witness :
    sampleAnimation lerpQuat animN2 skW2 poseW2 0 = Except.error "TypeError" :=
  (sampleAnimation_missing_components lerpQuat animN2 skW2 poseW2 0 (by decide) (by decide)
    (by decide)).2 1 (by decide) (by rfl)

/-- C4 (counterexample): a call on a zero-frame animation is not rejected: it
returns normally (in JS it fills the pose with NaN garbage, since
`frame % 0` is NaN), so no validation happens before sampling. -/
theorem sampleAnimation_zero_frames_completes :
    isOkE (sampleAnimation lerpQuat animZ skW poseW 5) = true := rfl

/-- C4 (amended): `sampleAnimation` performs no frameCount validation: a call
with `frameCount = 0` whose track entries are all non-null proceeds through
the whole bone loop and returns normally instead of being rejected (the JS
original overwrites the pose with NaN values in this case). -/
theorem sampleAnimation_zero_frames_not_rejected (slerp : Quat → Quat → ℚ → Quat)
    (anim : RMXAnimation) (sk : RMXSkeleton) (pose : RMXPose) (frame : ℚ)
    (hz : anim.frames = 0)
    (ht : ∀ c, c < sk.bones.length → anim.tracks.getD c none ≠ none) :
    isOkE (sampleAnimation slerp anim sk pose frame) = true := by
  simp only [sampleAnimation]
  exact sampleGo_ok_of_tracks slerp anim.tracks sk.bones _ _ _ _ _ _
    sk.bones.length 0 pose (fun c hc1 hc2 => ht c (by omega))

/-- C4 (witness): the amended statement applied at a concrete zero-frame
animation with an all-rest track. -/
theorem sampleAnimation_zero_frames_witness :
    isOkE (sampleAnimation lerpQuat animZ2 skW poseW 3) = true :=
  sampleAnimation_zero_frames_not_rejected lerpQuat animZ2 skW poseW 3 rfl
    (by
      intro c hc
      have hc1 : c < 1 := by simpa [skW] using hc
      interval_cases c
      simp [animZ2])

/-- C9: the pose produced by `sampleAnimation` is independent of the tracks'
own `bone` index fields: two animations with the same frame count whose track
lists agree entrywise on presence and on the position/rotation/scale arrays
(the `bone` field may differ arbitrarily) yield identical results, because the
sampler pairs track `i` with skeleton bone `i` purely by position and never
reads the track's `bone` field. -/
theorem sampleAnimation_ignores_bone_field (slerp : Quat → Quat → ℚ → Quat)
    (a₁ a₂ : RMXAnimation) (sk : RMXSkeleton) (pose : RMXPose) (frame : ℚ)
    (hf : a₁.frames = a₂.frames)
    (ht : ∀ c, trackMatch (a₁.tracks.getD c none) (a₂.tracks.getD c none)) :
    sampleAnimation slerp a₁ sk pose frame = sampleAnimation slerp a₂ sk pose frame := by
  simp only [sampleAnimation, if_true]
  rw [hf]
  exact sampleGo_congr slerp a₁.tracks a₂.tracks sk.bones _ _ _ _ _ _ ht
    sk.bones.length 0 pose

/-- C9 (witness): two concrete animations differing only in the track's
`bone` field produce the same result. -/
theorem sampleAnimation_ignores_bone_field_witness :
    sampleAnimation lerpQuat animB1 skW poseW 0 = sampleAnimation lerpQuat animB2 skW poseW 0 :=
  sampleAnimation_ignores_bone_field lerpQuat animB1 animB2 skW poseW 0 rfl
    (by
      intro c
      match c with
      | 0 => exact ⟨rfl, rfl, rfl⟩
      | c + 1 => exact trivial)

theorem foldl_set_length (pos : ℕ → ℕ) (val : ℕ → ℚ) :
    ∀ (is : List ℕ) (d : List ℚ),
      (is.foldl (fun d i => d.set (pos i) (val i)) d).length = d.length := by
  intro is
  induction is with
  | nil =>
    intro d
    rfl
  | cons i is ih =>
    intro d
    simp only [List.foldl_cons, ih, List.length_set]

theorem foldl_set_getD_notMem (pos : ℕ → ℕ) (val : ℕ → ℚ) (j : ℕ) :
    ∀ (is : List ℕ) (d : List ℚ), (∀ a ∈ is, pos a ≠ j) →
      (is.foldl (fun d i => d.set (pos i) (val i)) d).getD j 0 = d.getD j 0 := by
  intro is
  induction is with
  | nil =>
    intro d _
    rfl
  | cons i is ih =>
    intro d hne
    simp only [List.foldl_cons]
    rw [ih _ (fun a ha => hne a (List.mem_cons_of_mem i ha))]
    exact getD_set_ne _ _ _ _ _ (hne i (List.mem_cons_self i is))

theorem foldl_set_getD_hit (pos : ℕ → ℕ) (val : ℕ → ℚ) (i : ℕ) :
    ∀ (is : List ℕ) (d : List ℚ), i ∈ is →
      (∀ a ∈ is, ∀ b ∈ is, pos a = pos b → a = b) →
      pos i < d.length →
      (is.foldl (fun d k => d.set (pos k) (val k)) d).getD (pos i) 0 = val i := by
  intro is
  induction is with
  | nil =>
    intro d hmem _ _
    exact absurd hmem (List.not_mem_nil i)
  | cons a as ih =>
    intro d hmem hinj hlen
    simp only [List.foldl_cons]
    by_cases hia : i = a
    · subst hia
      by_cases hmem2 : i ∈ as
      · exact ih _ hmem2
          (fun x hx y hy => hinj x (List.mem_cons_of_mem _ hx) y (List.mem_cons_of_mem _ hy))
          (by rw [List.length_set]; exact hlen)
      · rw [foldl_set_getD_notMem pos val (pos i) as _ (by
          intro x hx hpx
          have hxi := hinj x (List.mem_cons_of_mem _ hx) i (List.mem_cons_self _ _) hpx
          exact hmem2 (hxi ▸ hx))]
        exact getD_set_self _ _ _ _ hlen
    · have hmem2 : i ∈ as := by
        rcases List.mem_cons.mp hmem with h | h
        · exact absurd h hia
        · exact h
      exact ih _ hmem2
        (fun x hx y hy => hinj x (List.mem_cons_of_mem _ hx) y (List.mem_cons_of_mem _ hy))
        (by rw [List.length_set]; exact hlen)

theorem writeMat16_length (dest : List ℚ) (b : ℕ) (m : Mat4) :
    (writeMat16 dest b m).length = dest.length :=
  foldl_set_length (fun i => 16 * b + i) (fun i => mat16 m i) (List.range 16) dest

theorem writeMat16_getD_hit (dest : List ℚ) (b : ℕ) (m : Mat4) (i : ℕ) (hi : i < 16)
    (hlen : 16 * b + i < dest.length) :
    (writeMat16 dest b m).getD (16 * b + i) 0 = mat16 m i :=
  foldl_set_getD_hit (fun k => 16 * b + k) (fun k => mat16 m k) i (List.range 16) dest
    (List.mem_range.mpr hi) (fun a _ b' _ h => by simpa using h) hlen

theorem writeMat16_getD_ne (dest : List ℚ) (b : ℕ) (m : Mat4) (j : ℕ)
    (hj : ∀ i, i < 16 → 16 * b + i ≠ j) :
    (writeMat16 dest b m).getD j 0 = dest.getD j 0 :=
  foldl_set_getD_notMem (fun k => 16 * b + k) (fun k => mat16 m k) j (List.range 16) dest
    (fun a ha => hj a (List.mem_range.mp ha))

theorem exportPoseGo_spec (sk : RMXSkeleton) (pose : RMXPose)
    (htopo : ∀ i, i < sk.bones.length → (sk.bones.getD i defBone).parent < (i : ℤ)) :
    ∀ (fuel b : ℕ) (ws : List Mat4) (dest : List ℚ),
      b + fuel = sk.bones.length →
      ws.length = sk.bones.length →
      16 * sk.bones.length ≤ dest.length →
      (∀ j, j < b → ws.getD j mat4zero = worldSpec sk pose j) →
      (∀ j, j < 16 * b →
        (exportPoseGo sk pose b fuel ws dest).2.getD j 0 = dest.getD j 0) ∧
      ∀ c, b ≤ c → c < sk.bones.length → ∀ i, i < 16 →
        (exportPoseGo sk pose b fuel ws dest).2.getD (16 * c + i) 0 =
          mat16 (mat4mul (worldSpec sk pose c) ((sk.bones.getD c defBone).inv_bind_mat)) i := by
  intro fuel
  induction fuel with
  | zero =>
    intro b ws dest hb hws hdest hwsp
    refine ⟨fun j _ => rfl, ?_⟩
    intro c hc1 hc2
    omega
  | succ fuel ih =>
    intro b ws dest hb hws hdest hwsp
    have hb' : b < sk.bones.length := by omega
    simp only [exportPoseGo]
    have hworld : (if 0 ≤ (sk.bones.getD b defBone).parent then
          mat4mul (ws.getD (sk.bones.getD b defBone).parent.toNat mat4zero) (localMat pose b)
        else localMat pose b) = worldSpec sk pose b := by
      have htb := htopo b hb'
      by_cases hp0 : 0 ≤ (sk.bones.getD b defBone).parent
      · rw [if_pos hp0, worldSpec,
          dif_pos (show 0 ≤ (sk.bones.getD b defBone).parent ∧
            (sk.bones.getD b defBone).parent.toNat < b from ⟨hp0, by omega⟩)]
        exact congrArg (fun z => mat4mul z (localMat pose b))
          (hwsp (sk.bones.getD b defBone).parent.toNat (by omega))
      · rw [if_neg hp0, worldSpec, dif_neg (by tauto)]
    rw [hworld]
    have hih := ih (b + 1) (ws.set b (worldSpec sk pose b))
      (writeMat16 dest b (mat4mul (worldSpec sk pose b) ((sk.bones.getD b defBone).inv_bind_mat)))
      (by omega) (by rw [List.length_set]; exact hws)
      (by rw [writeMat16_length]; exact hdest)
      (by
        intro j hj
        rcases Nat.lt_succ_iff_lt_or_eq.mp hj with hjb | hjb
        · rw [getD_set_ne _ _ _ _ _ (by omega)]
          exact hwsp j hjb
        · subst hjb
          exact getD_set_self _ _ _ _ (by omega))
    refine ⟨?_, ?_⟩
    · intro j hj
      rw [hih.1 j (by omega)]
      exact writeMat16_getD_ne dest b _ j (fun i2 hi2 => by omega)
    · intro c hc1 hc2 i hi16
      rcases Nat.eq_or_lt_of_le hc1 with hceq | hclt
      · have hcb : c = b := by omega
        subst hcb
        rw [hih.1 (16 * c + i) (by omega)]
        exact writeMat16_getD_hit dest c _ i hi16 (by omega)
      · exact hih.2 c (by omega) hc2 i hi16

/-- C1: for every skeleton in topological order (each bone's parent index is
below its own index, with negative parent indices marking roots) and every
pose, `exportPose` writes for each bone `b` the 16 consecutive buffer entries
`dest[16b .. 16b+15]` of the matrix `world_b * inverseBindMatrix_b`, where
`world_b` is the specification recursion `worldSpec` (`world_parent * local`
for bones with a non-negative parent index, `local` for roots, the local
matrix built from the pose's translation, rotation quaternion and scale), in
the row-major flat layout.  The pose's world-matrix list must have one entry
per bone and the destination buffer must hold 16 floats per bone, exactly as
the callers allocate them. -/
theorem exportPose_spec (sk : RMXSkeleton) (pose : RMXPose) (dest : List ℚ)
    (hws : pose.world_matrices.length = sk.bones.length)
    (hdest : 16 * sk.bones.length ≤ dest.length)
    (htopo : ∀ i, i < sk.bones.length → (sk.bones.getD i defBone).parent < (i : ℤ)) :
    ∀ b, b < sk.bones.length → ∀ i, i < 16 →
      (exportPose sk pose dest).2.getD (16 * b + i) 0 =
        mat16 (mat4mul (worldSpec sk pose b) ((sk.bones.getD b defBone).inv_bind_mat)) i := by
  intro b hb i hi
  exact (exportPoseGo_spec sk pose htopo sk.bones.length 0 pose.world_matrices dest
    (by omega) hws hdest (fun j hj => absurd hj (by omega))).2 b (by omega) hb i hi

/-- C1 (witness): the export applied at a concrete one-bone skeleton. -/
theorem exportPose_spec_witness :
    (exportPose skW poseW destW).2.getD 0 0 =
      mat16 (mat4mul (worldSpec skW poseW 0) ((skW.bones.getD 0 defBone).inv_bind_mat)) 0 := by
  have h := exportPose_spec skW poseW destW (by decide)
    (by simp [skW, destW]) (by decide) 0 (by decide) 0 (by decide)
  simpa using h
